import Mathlib

/-!
Verification of the `rtest` crate: a shallow embedding of the `test_cases`
table expansion and of the `test_fn` unit synthesizer with its run-time
instrumentation, together with theorems about the behaviour of both.

The `test_cases` expansion rules of the source accept a declarative table
(group name, fixture block, a single case-record item, a non-empty case list,
a verification routine) and emit one `test_fn` invocation per case entry,
inside a `cfg(test)`-guarded module named after the group.  The case list is
matched by one of two arms: each list position is either
`skip case(..)` optionally followed by `case(..)` (skip-first arm), or
`case(..)` optionally followed by `skip case(..)` (normal-first arm).

The `test_fn` rules synthesize either an ignored empty unit (skip) or an
instrumented unit that records a start instant, prints a RUN marker, runs the
body under a panic catcher, prints a PASS or FAIL line with the elapsed time,
and on failure resumes the unwind with the original payload.
-/

set_option autoImplicit false

/-- One row of the case list: `case(name, value)` when `skip = false`,
`skip case(name, value)` when `skip = true`.  `α` is the type of the
case-record value bound to the entry. -/
structure CaseEntry (α : Type) where
  name : String
  skip : Bool
  value : α
deriving DecidableEq

/-- A unit produced by the `test_fn` rules.  The skip arm of `test_fn`
expands to `#[test] #[ignore] fn name() {}` and drops both the group name
and the body, hence `ignored` keeps only the unit name.  The regular arm
keeps the optional group name and the case-record value bound into the
body. -/
inductive SynthUnit (α : Type) where
  | ignored (name : String)
  | active (name : String) (sup : Option String) (value : α)
deriving DecidableEq

/-- The declarative table consumed by `test_cases`: group name, the fixture
items of the `vars` block, the items of the `cases` block (the matcher
requires exactly one), and the ordered case-entry list.  Item sources are
kept abstract as strings. -/
structure Table (α : Type) where
  name : String
  vars : List String
  cases : List String
  entries : List (CaseEntry α)
deriving DecidableEq

/-- The module emitted by a successful `test_cases` expansion:
`#[cfg(test)] mod name { vars… caseType unit… }`. -/
structure GenModule (α : Type) where
  modName : String
  cfgTest : Bool
  vars : List String
  caseType : String
  units : List (SynthUnit α)
deriving DecidableEq

/-- The `test_fn` synthesizer: the skip arm yields an ignored empty unit,
the regular arm an active unit carrying the group name and the bound
value. -/
def test_fn {α : Type} (skip : Bool) (name : String) (sup : Option String)
    (value : α) : SynthUnit α :=
  if skip then SynthUnit.ignored name else SynthUnit.active name sup value

/-- The unit synthesized for one case entry of group `g`: its own skip flag,
its own name, the group as `sup`, its bound value. -/
def mkUnit {α : Type} (g : String) (e : CaseEntry α) : SynthUnit α :=
  test_fn e.skip e.name (some g) e.value

/-- Skip-first arm of the case-list matcher: zero or more positions, each
`skip case(..)` optionally paired with an immediately following `case(..)`.
Returns the emitted units in emission order when the remainder matches.
The pairing is forced: a following skip entry cannot start the optional
(`case` is required there), and an unpaired normal entry cannot start the
next position (`skip` is required there). -/
def sfRestExp {α : Type} (g : String) : List (CaseEntry α) → Option (List (SynthUnit α))
  | [] => some []
  | [e] => if e.skip then some [test_fn true e.name (some g) e.value] else none
  | e :: e2 :: rest =>
    if e.skip then
      if e2.skip then
        (sfRestExp g (e2 :: rest)).map
          (fun vs => test_fn true e.name (some g) e.value :: vs)
      else
        (sfRestExp g rest).map
          (fun vs => test_fn true e.name (some g) e.value ::
            test_fn false e2.name (some g) e2.value :: vs)
    else none

/-- Normal-first arm of the case-list matcher: zero or more positions, each
`case(..)` optionally paired with an immediately following `skip case(..)`. -/
def nfRestExp {α : Type} (g : String) : List (CaseEntry α) → Option (List (SynthUnit α))
  | [] => some []
  | [e] => if e.skip then none else some [test_fn false e.name (some g) e.value]
  | e :: e2 :: rest =>
    if e.skip then none
    else
      if e2.skip then
        (nfRestExp g rest).map
          (fun vs => test_fn false e.name (some g) e.value ::
            test_fn true e2.name (some g) e2.value :: vs)
      else
        (nfRestExp g (e2 :: rest)).map
          (fun vs => test_fn false e.name (some g) e.value :: vs)

/-- The skip-first arm requires at least one position (`+` repetition). -/
def sfExpand {α : Type} (g : String) (l : List (CaseEntry α)) :
    Option (List (SynthUnit α)) :=
  match l with
  | [] => none
  | _ :: _ => sfRestExp g l

/-- The normal-first arm requires at least one position (`+` repetition). -/
def nfExpand {α : Type} (g : String) (l : List (CaseEntry α)) :
    Option (List (SynthUnit α)) :=
  match l with
  | [] => none
  | _ :: _ => nfRestExp g l

/-- The case-list is matched against the skip-first arm and then the
normal-first arm, in source order. -/
def expandUnits {α : Type} (g : String) (l : List (CaseEntry α)) :
    Option (List (SynthUnit α)) :=
  match sfExpand g l with
  | some us => some us
  | none => nfExpand g l

/-- The `test_cases` expansion: requires exactly one item in the `cases`
block and a case list matched by one of the two arms, and yields the
`cfg(test)`-guarded module; otherwise no rule matches. -/
def test_cases {α : Type} (t : Table α) : Option (GenModule α) :=
  match t.cases, expandUnits t.name t.entries with
  | [c], some us => some (GenModule.mk t.name true t.vars c us)
  | _, _ => none

/-- Elapsed wall-clock duration as sampled by `start.elapsed()`:
`as_secs()` and `subsec_millis()`. -/
structure Elapsed where
  secs : Nat
  millis : Nat
deriving DecidableEq

/-- Result of running a unit body: normal return, or an unwinding panic
carrying a payload of type `π`. -/
inductive Outcome (π : Type) where
  | ok
  | panicked (payload : π)
deriving DecidableEq

/-- Observable steps of one unit invocation, in order: sampling the start
instant (`Instant::now()`), printing one line, entering the body inside
`catch_unwind`, and resuming an unwind towards the host runner
(`resume_unwind`). -/
inductive Event (π : Type) where
  | recordStart
  | log (line : String)
  | invokeBody
  | propagate (payload : π)
deriving DecidableEq

/-- `stringify!` of the optional group identifier: the empty string when it
is absent. -/
def supText : Option String → String
  | none => ""
  | some s => s

/-- The qualified display name computed by the regular `test_fn` arm:
`match stringify!(sup) { "" => name, _ => sup/name }`. -/
def fnName (sup : Option String) (name : String) : String :=
  if supText sup = "" then name else supText sup ++ "/" ++ name

/-- The start-marker line: `println!("=== RUN  \t{}", fn_name)`. -/
def runLine (fn : String) : String := "=== RUN  \t" ++ fn

/-- The success line: `println!("--- PASS:\t{} ({}.{})", fn_name, secs, millis)`. -/
def passLine (fn : String) (t : Elapsed) : String :=
  "--- PASS:\t" ++ fn ++ " (" ++ toString t.secs ++ "." ++ toString t.millis ++ ")"

/-- The failure line: `println!("--- FAIL:\t{} ({}.{})", fn_name, secs, millis)`. -/
def failLine (fn : String) (t : Elapsed) : String :=
  "--- FAIL:\t" ++ fn ++ " (" ++ toString t.secs ++ "." ++ toString t.millis ++ ")"

/-- The line printed after the body returns: the PASS line on normal
return, the FAIL line on a caught panic. -/
def resultLine {π : Type} (b : Outcome π) (fn : String) (t : Elapsed) : String :=
  match b with
  | Outcome.ok => passLine fn t
  | Outcome.panicked _ => failLine fn t

/-- The event trace of one invocation of a regular (non-skipped) unit,
following the source order: sample `Instant::now()`, print the RUN marker,
run the body under `catch_unwind`, then print PASS, or print FAIL and
resume the unwind with the original payload. -/
def runActive {π : Type} (sup : Option String) (name : String)
    (body : Outcome π) (t : Elapsed) : List (Event π) :=
  Event.recordStart ::
  Event.log (runLine (fnName sup name)) ::
  Event.invokeBody ::
  (match body with
   | Outcome.ok => [Event.log (passLine (fnName sup name) t)]
   | Outcome.panicked p =>
       [Event.log (failLine (fnName sup name) t), Event.propagate p])

/-- Running a synthesized unit under verification routine `code`: the
ignored unit has an empty function body and produces no events; the active
unit applies the routine to its bound value inside the instrumentation. -/
def runUnit {α π : Type} (code : α → Outcome π) (t : Elapsed) :
    SynthUnit α → List (Event π)
  | SynthUnit.ignored _ => []
  | SynthUnit.active n sup v => runActive sup n (code v) t

/-- The lines printed during a trace. -/
def logLines {π : Type} (tr : List (Event π)) : List String :=
  tr.filterMap fun e =>
    match e with
    | Event.log s => some s
    | _ => none

/-- The unwind payloads propagated to the host runner during a trace. -/
def propagations {π : Type} (tr : List (Event π)) : List π :=
  tr.filterMap fun e =>
    match e with
    | Event.propagate p => some p
    | _ => none

/-- Both `test_fn` arms attach `#[test]`, so every synthesized unit is
discoverable by the host runner. -/
def hasTestAttr {α : Type} : SynthUnit α → Bool := fun _ => true

/-- Only the skip arm attaches `#[ignore]`. -/
def hasIgnoreAttr {α : Type} : SynthUnit α → Bool
  | SynthUnit.ignored _ => true
  | SynthUnit.active _ _ _ => false

/-- The function name a unit is registered under. -/
def unitName {α : Type} : SynthUnit α → String
  | SynthUnit.ignored n => n
  | SynthUnit.active n _ _ => n

/-- An item of the generated module. -/
inductive ModItem (α : Type) where
  | fixture (src : String)
  | caseRecord (src : String)
  | unit (u : SynthUnit α)
deriving DecidableEq

/-- All items of the generated module: fixtures, the case-record item and
the units. -/
def GenModule.items {α : Type} (m : GenModule α) : List (ModItem α) :=
  m.vars.map ModItem.fixture ++
    (ModItem.caseRecord m.caseType :: m.units.map ModItem.unit)

/-- Items of the module present in a given build: a `cfg(test)`-guarded
module is stripped from non-test builds. -/
def GenModule.buildItems {α : Type} (m : GenModule α) (testBuild : Bool) :
    List (ModItem α) :=
  if m.cfgTest && !testBuild then [] else m.items

/-- A generation-time error, as reported by the host compiler.
`noMatch` models a failure of the expansion rules to match: the
compile error is reported at the invocation site, which names the group.
`duplicateDefinition` models the host language rejecting two items of the
same name inside the generated module (the diagnostic names the duplicated
identifier and is located inside the group module). -/
inductive GenError where
  | noMatch (group : String)
  | duplicateDefinition (group : String) (dup : String)
deriving DecidableEq

/-- The group a generation-time error points at. -/
def GenError.group : GenError → String
  | GenError.noMatch g => g
  | GenError.duplicateDefinition g _ => g

/-- First name that occurs again later in the list, if any. -/
def firstDup : List String → Option String
  | [] => none
  | n :: rest => if n ∈ rest then some n else firstDup rest

/-- The whole generation step: expansion of the table followed by the host
language's duplicate-definition check on the generated module.  It either
yields the unit set or fails before any unit exists. -/
def generate {α : Type} (t : Table α) : Except GenError (List (SynthUnit α)) :=
  match test_cases t with
  | none => Except.error (GenError.noMatch t.name)
  | some m =>
    match firstDup (m.units.map unitName) with
    | some d => Except.error (GenError.duplicateDefinition m.modName d)
    | none => Except.ok m.units

/-- `f` holds on two adjacent entries somewhere in the list. -/
def hasAdjacent {α : Type} (f : CaseEntry α → Bool) : List (CaseEntry α) → Bool
  | a :: b :: rest => (f a && f b) || hasAdjacent f (b :: rest)
  | _ => false

/-- Concrete example: a table phrased skip-first (`skip case(b, ..), case(a, ..)`). -/
def sfTable : Table Nat :=
  Table.mk "g" [] ["struct TC"]
    [CaseEntry.mk "b" true 2, CaseEntry.mk "a" false 1]

/-- Concrete example: the same entries phrased normal-first
(`case(a, ..), skip case(b, ..)`). -/
def nfTable : Table Nat :=
  Table.mk "g" [] ["struct TC"]
    [CaseEntry.mk "a" false 1, CaseEntry.mk "b" true 2]

/-- Expansion of `sfTable`. -/
def sfGenModule : GenModule Nat :=
  GenModule.mk "g" true [] "struct TC"
    [SynthUnit.ignored "b", SynthUnit.active "a" (some "g") 1]

/-- Expansion of `nfTable`. -/
def nfGenModule : GenModule Nat :=
  GenModule.mk "g" true [] "struct TC"
    [SynthUnit.active "a" (some "g") 1, SynthUnit.ignored "b"]

/-- Concrete example: a normal entry followed by two consecutive skip
entries, which mixes the two orientations. -/
def mixTable : Table Nat :=
  Table.mk "g" [] ["struct TC"]
    [CaseEntry.mk "a" false 1, CaseEntry.mk "b" true 2, CaseEntry.mk "c" true 3]

/-- Concrete example: two entries with the same case name. -/
def dupTable : Table Nat :=
  Table.mk "g" [] ["struct TC"]
    [CaseEntry.mk "a" false 1, CaseEntry.mk "a" false 2]

/-- Concrete example: a well-formed one-entry table with a fixture. -/
def oneTable : Table Nat :=
  Table.mk "gg" ["const X"] ["struct TC"] [CaseEntry.mk "a" false 0]

/-- Expansion of `oneTable`. -/
def oneGenModule : GenModule Nat :=
  GenModule.mk "gg" true ["const X"] "struct TC"
    [SynthUnit.active "a" (some "gg") 0]

/-! ### Helper lemmas about the expansion -/

theorem sfRestExp_map {α : Type} (g : String) :
    ∀ (l : List (CaseEntry α)) (us : List (SynthUnit α)),
      sfRestExp g l = some us → us = l.map (mkUnit g)
  | [], us, h => by
    simp only [sfRestExp, Option.some.injEq] at h
    simp [← h]
  | [e], us, h => by
    cases he : e.skip with
    | false => simp [sfRestExp, he] at h
    | true =>
      simp only [sfRestExp, he, if_true, Option.some.injEq] at h
      simp [← h, mkUnit, he]
  | e :: e2 :: rest, us, h => by
    cases he : e.skip with
    | false => simp [sfRestExp, he] at h
    | true =>
      cases he2 : e2.skip with
      | true =>
        have h' : (sfRestExp g (e2 :: rest)).map
            (fun vs => test_fn true e.name (some g) e.value :: vs) = some us := by
          simpa [sfRestExp, he, he2] using h
        obtain ⟨us2, hrec, hus⟩ := Option.map_eq_some'.mp h'
        have ih := sfRestExp_map g (e2 :: rest) us2 hrec
        simp [← hus, ih, mkUnit, he]
      | false =>
        have h' : (sfRestExp g rest).map
            (fun vs => test_fn true e.name (some g) e.value ::
              test_fn false e2.name (some g) e2.value :: vs) = some us := by
          simpa [sfRestExp, he, he2] using h
        obtain ⟨us2, hrec, hus⟩ := Option.map_eq_some'.mp h'
        have ih := sfRestExp_map g rest us2 hrec
        simp [← hus, ih, mkUnit, he, he2]

theorem nfRestExp_map {α : Type} (g : String) :
    ∀ (l : List (CaseEntry α)) (us : List (SynthUnit α)),
      nfRestExp g l = some us → us = l.map (mkUnit g)
  | [], us, h => by
    simp only [nfRestExp, Option.some.injEq] at h
    simp [← h]
  | [e], us, h => by
    cases he : e.skip with
    | true => simp [nfRestExp, he] at h
    | false =>
      simp only [nfRestExp, he, Bool.false_eq_true, if_false] at h
      simp only [Option.some.injEq] at h
      simp [← h, mkUnit, he]
  | e :: e2 :: rest, us, h => by
    cases he : e.skip with
    | true => simp [nfRestExp, he] at h
    | false =>
      cases he2 : e2.skip with
      | true =>
        have h' : (nfRestExp g rest).map
            (fun vs => test_fn false e.name (some g) e.value ::
              test_fn true e2.name (some g) e2.value :: vs) = some us := by
          simpa [nfRestExp, he, he2] using h
        obtain ⟨us2, hrec, hus⟩ := Option.map_eq_some'.mp h'
        have ih := nfRestExp_map g rest us2 hrec
        simp [← hus, ih, mkUnit, he, he2]
      | false =>
        have h' : (nfRestExp g (e2 :: rest)).map
            (fun vs => test_fn false e.name (some g) e.value :: vs) = some us := by
          simpa [nfRestExp, he, he2] using h
        obtain ⟨us2, hrec, hus⟩ := Option.map_eq_some'.mp h'
        have ih := nfRestExp_map g (e2 :: rest) us2 hrec
        simp [← hus, ih, mkUnit, he]

theorem sfExpand_map {α : Type} (g : String) (l : List (CaseEntry α))
    (us : List (SynthUnit α)) (h : sfExpand g l = some us) :
    us = l.map (mkUnit g) ∧ l ≠ [] := by
  cases l with
  | nil => simp [sfExpand] at h
  | cons e rest =>
    refine ⟨sfRestExp_map g (e :: rest) us ?_, by simp⟩
    simpa [sfExpand] using h

theorem nfExpand_map {α : Type} (g : String) (l : List (CaseEntry α))
    (us : List (SynthUnit α)) (h : nfExpand g l = some us) :
    us = l.map (mkUnit g) ∧ l ≠ [] := by
  cases l with
  | nil => simp [nfExpand] at h
  | cons e rest =>
    refine ⟨nfRestExp_map g (e :: rest) us ?_, by simp⟩
    simpa [nfExpand] using h

theorem expandUnits_map {α : Type} (g : String) (l : List (CaseEntry α))
    (us : List (SynthUnit α)) (h : expandUnits g l = some us) :
    us = l.map (mkUnit g) ∧ l ≠ [] := by
  cases hs : sfExpand g l with
  | some us2 =>
    have h' : us2 = us := by simpa [expandUnits, hs] using h
    obtain ⟨h1, h2⟩ := sfExpand_map g l us2 hs
    exact ⟨h' ▸ h1, h2⟩
  | none =>
    have h' : nfExpand g l = some us := by simpa [expandUnits, hs] using h
    exact nfExpand_map g l us h'

theorem test_cases_some {α : Type} (t : Table α) (m : GenModule α)
    (h : test_cases t = some m) :
    m.modName = t.name ∧ m.cfgTest = true ∧ m.vars = t.vars ∧
    t.cases = [m.caseType] ∧ t.entries ≠ [] ∧
    m.units = t.entries.map (mkUnit t.name) := by
  rcases hc : t.cases with _ | ⟨c, _ | ⟨c2, cs⟩⟩
  · simp [test_cases, hc] at h
  · cases he : expandUnits t.name t.entries with
    | none => simp [test_cases, hc, he] at h
    | some us =>
      obtain ⟨hus, hne⟩ := expandUnits_map t.name t.entries us he
      simp only [test_cases, hc, he, Option.some.injEq] at h
      subst h
      exact ⟨rfl, rfl, rfl, rfl, hne, hus⟩
  · simp [test_cases, hc] at h

theorem unitName_mkUnit {α : Type} (g : String) (e : CaseEntry α) :
    unitName (mkUnit g e) = e.name := by
  cases he : e.skip <;> simp [mkUnit, test_fn, he, unitName]

theorem hasIgnoreAttr_mkUnit {α : Type} (g : String) (e : CaseEntry α) :
    hasIgnoreAttr (mkUnit g e) = e.skip := by
  cases he : e.skip <;> simp [mkUnit, test_fn, he, hasIgnoreAttr]

theorem map_unitName_mkUnit {α : Type} (g : String) (l : List (CaseEntry α)) :
    (l.map (mkUnit g)).map unitName = l.map CaseEntry.name := by
  induction l with
  | nil => rfl
  | cons e rest ih => simp [unitName_mkUnit, ih]

/-! ### Helper lemmas about the duplicate check -/

theorem firstDup_none_iff (l : List String) : firstDup l = none ↔ l.Nodup := by
  induction l with
  | nil => simp [firstDup]
  | cons n rest ih =>
    by_cases hm : n ∈ rest
    · simp [firstDup, hm, List.nodup_cons]
    · simp [firstDup, hm, List.nodup_cons, ih]

theorem firstDup_count (l : List String) (d : String) (h : firstDup l = some d) :
    2 ≤ l.count d := by
  induction l with
  | nil => simp [firstDup] at h
  | cons n rest ih =>
    by_cases hm : n ∈ rest
    · simp only [firstDup, hm, if_true, Option.some.injEq] at h
      subst h
      have hc : rest.count n ≠ 0 := fun h0 => (List.count_eq_zero.mp h0) hm
      rw [List.count_cons_self]
      omega
    · simp only [firstDup, hm, if_false] at h
      have h2 := ih h
      rw [List.count_cons]
      omega

/-! ### Helper lemmas about the grammar shape -/

theorem sfRestExp_head {α : Type} (g : String) (e : CaseEntry α)
    (l : List (CaseEntry α)) (us : List (SynthUnit α))
    (h : sfRestExp g (e :: l) = some us) : e.skip = true := by
  cases l with
  | nil =>
    cases he : e.skip with
    | false => simp [sfRestExp, he] at h
    | true => rfl
  | cons e2 rest =>
    cases he : e.skip with
    | false => simp [sfRestExp, he] at h
    | true => rfl

theorem nfRestExp_head {α : Type} (g : String) (e : CaseEntry α)
    (l : List (CaseEntry α)) (us : List (SynthUnit α))
    (h : nfRestExp g (e :: l) = some us) : e.skip = false := by
  cases l with
  | nil =>
    cases he : e.skip with
    | true => simp [nfRestExp, he] at h
    | false => rfl
  | cons e2 rest =>
    cases he : e.skip with
    | true => simp [nfRestExp, he] at h
    | false => rfl

theorem nfRestExp_no_adj {α : Type} (g : String) :
    ∀ (l : List (CaseEntry α)) (us : List (SynthUnit α)),
      nfRestExp g l = some us → hasAdjacent (fun x => x.skip) l = false
  | [], _, _ => rfl
  | [_], _, _ => rfl
  | e :: e2 :: rest, us, h => by
    cases he : e.skip with
    | true => simp [nfRestExp, he] at h
    | false =>
      cases he2 : e2.skip with
      | false =>
        have h' : (nfRestExp g (e2 :: rest)).map
            (fun vs => test_fn false e.name (some g) e.value :: vs) = some us := by
          simpa [nfRestExp, he, he2] using h
        obtain ⟨us2, hrec, -⟩ := Option.map_eq_some'.mp h'
        have ih := nfRestExp_no_adj g (e2 :: rest) us2 hrec
        simp [hasAdjacent, he, ih]
      | true =>
        have h' : (nfRestExp g rest).map
            (fun vs => test_fn false e.name (some g) e.value ::
              test_fn true e2.name (some g) e2.value :: vs) = some us := by
          simpa [nfRestExp, he, he2] using h
        obtain ⟨us2, hrec, -⟩ := Option.map_eq_some'.mp h'
        have ih := nfRestExp_no_adj g rest us2 hrec
        cases rest with
        | nil => simp [hasAdjacent, he]
        | cons r rs =>
          have hr : r.skip = false := nfRestExp_head g r rs us2 hrec
          simp [hasAdjacent, he, hr, ih]

theorem sfRestExp_no_adj {α : Type} (g : String) :
    ∀ (l : List (CaseEntry α)) (us : List (SynthUnit α)),
      sfRestExp g l = some us → hasAdjacent (fun x => !x.skip) l = false
  | [], _, _ => rfl
  | [_], _, _ => rfl
  | e :: e2 :: rest, us, h => by
    cases he : e.skip with
    | false => simp [sfRestExp, he] at h
    | true =>
      cases he2 : e2.skip with
      | true =>
        have h' : (sfRestExp g (e2 :: rest)).map
            (fun vs => test_fn true e.name (some g) e.value :: vs) = some us := by
          simpa [sfRestExp, he, he2] using h
        obtain ⟨us2, hrec, -⟩ := Option.map_eq_some'.mp h'
        have ih := sfRestExp_no_adj g (e2 :: rest) us2 hrec
        simp [hasAdjacent, he, ih]
      | false =>
        have h' : (sfRestExp g rest).map
            (fun vs => test_fn true e.name (some g) e.value ::
              test_fn false e2.name (some g) e2.value :: vs) = some us := by
          simpa [sfRestExp, he, he2] using h
        obtain ⟨us2, hrec, -⟩ := Option.map_eq_some'.mp h'
        have ih := sfRestExp_no_adj g rest us2 hrec
        cases rest with
        | nil => simp [hasAdjacent, he]
        | cons r rs =>
          have hr : r.skip = true := sfRestExp_head g r rs us2 hrec
          simp [hasAdjacent, he, hr, ih]

/-! ### C1: one unit per entry -/

/-- C1: for every well-formed table accepted by the `test_cases` expansion,
the generated units are exactly one `test_fn` unit per case entry, in order,
so the number of generated units equals the number of entries, regardless of
skip flags and of the order of entries. -/
theorem test_cases_unit_count {α : Type} (t : Table α) (m : GenModule α)
    (h : test_cases t = some m) :
    m.units = t.entries.map (mkUnit t.name) ∧
    m.units.length = t.entries.length := by
  obtain ⟨-, -, -, -, -, hu⟩ := test_cases_some t m h
  exact ⟨hu, by rw [hu, List.length_map]⟩

theorem test_cases_unit_count_witness :
    test_cases (Table.mk "grp" [] ["struct TC"]
        [CaseEntry.mk "a" false (1 : Nat), CaseEntry.mk "b" true 2]) =
      some (GenModule.mk "grp" true [] "struct TC"
        [SynthUnit.active "a" (some "grp") 1, SynthUnit.ignored "b"]) ∧
    ((GenModule.mk "grp" true [] "struct TC"
        [SynthUnit.active "a" (some "grp") (1 : Nat), SynthUnit.ignored "b"]).units =
      (Table.mk "grp" [] ["struct TC"]
        [CaseEntry.mk "a" false (1 : Nat), CaseEntry.mk "b" true 2]).entries.map
          (mkUnit "grp") ∧
     (GenModule.mk "grp" true [] "struct TC"
        [SynthUnit.active "a" (some "grp") (1 : Nat), SynthUnit.ignored "b"]).units.length =
      (Table.mk "grp" [] ["struct TC"]
        [CaseEntry.mk "a" false (1 : Nat), CaseEntry.mk "b" true 2]).entries.length) :=
  ⟨by decide, test_cases_unit_count
    (Table.mk "grp" [] ["struct TC"]
      [CaseEntry.mk "a" false (1 : Nat), CaseEntry.mk "b" true 2])
    (GenModule.mk "grp" true [] "struct TC"
      [SynthUnit.active "a" (some "grp") 1, SynthUnit.ignored "b"])
    (by decide)⟩

/-! ### C2: skipped units -/

/-- C2: for every entry with skip flag `true`, the synthesized unit is the
ignored unit of that name: it is discoverable (`#[test]`), marked as not
executed (`#[ignore]`), its body never applies the verification routine to
the entry's value, and an invocation produces no events at all — in
particular no body invocation and none of the RUN/PASS/FAIL lines. -/
theorem skip_unit_not_executed {α π : Type} (g : String) (e : CaseEntry α)
    (hskip : e.skip = true) :
    mkUnit g e = SynthUnit.ignored e.name ∧
    hasTestAttr (mkUnit g e) = true ∧
    hasIgnoreAttr (mkUnit g e) = true ∧
    ∀ (code : α → Outcome π) (t : Elapsed),
      runUnit code t (mkUnit g e) = [] ∧
      Event.invokeBody ∉ runUnit code t (mkUnit g e) ∧
      logLines (runUnit code t (mkUnit g e)) = [] := by
  refine ⟨by simp [mkUnit, test_fn, hskip], rfl, by simp [mkUnit, test_fn, hskip, hasIgnoreAttr], ?_⟩
  intro code t
  simp [mkUnit, test_fn, hskip, runUnit, logLines]

theorem skip_unit_not_executed_witness :
    (CaseEntry.mk "n" true (0 : Nat)).skip = true ∧
    (mkUnit "g" (CaseEntry.mk "n" true (0 : Nat)) =
        SynthUnit.ignored (CaseEntry.mk "n" true (0 : Nat)).name ∧
     hasTestAttr (mkUnit "g" (CaseEntry.mk "n" true (0 : Nat))) = true ∧
     hasIgnoreAttr (mkUnit "g" (CaseEntry.mk "n" true (0 : Nat))) = true ∧
     ∀ (code : Nat → Outcome Nat) (t : Elapsed),
       runUnit code t (mkUnit "g" (CaseEntry.mk "n" true 0)) = [] ∧
       Event.invokeBody ∉ runUnit code t (mkUnit "g" (CaseEntry.mk "n" true 0)) ∧
       logLines (runUnit code t (mkUnit "g" (CaseEntry.mk "n" true 0))) = []) :=
  ⟨rfl, skip_unit_not_executed "g" (CaseEntry.mk "n" true 0) rfl⟩

/-! ### C3: failure logging and propagation -/

/-- C3: for every non-skipped unit whose body panics, the invocation trace
contains the FAIL line with the elapsed time, ends with the FAIL line
immediately followed by the resumed unwind, and the original payload is
propagated to the host runner exactly once and unchanged. -/
theorem fail_logged_then_propagated {α π : Type} (n : String)
    (sup : Option String) (v : α) (code : α → Outcome π) (p : π) (t : Elapsed)
    (h : code v = Outcome.panicked p) :
    propagations (runUnit code t (SynthUnit.active n sup v)) = [p] ∧
    failLine (fnName sup n) t ∈ logLines (runUnit code t (SynthUnit.active n sup v)) ∧
    ∃ pre, runUnit code t (SynthUnit.active n sup v) =
      pre ++ [Event.log (failLine (fnName sup n) t), Event.propagate p] := by
  refine ⟨?_, ?_, ⟨[Event.recordStart, Event.log (runLine (fnName sup n)),
    Event.invokeBody], ?_⟩⟩ <;>
    simp [runUnit, runActive, h, propagations, logLines]

theorem fail_logged_then_propagated_witness :
    (fun _ : Nat => Outcome.panicked (7 : Nat)) 0 = Outcome.panicked 7 ∧
    (propagations (runUnit (fun _ : Nat => Outcome.panicked (7 : Nat))
        (Elapsed.mk 0 3) (SynthUnit.active "n" none (0 : Nat))) = [7] ∧
     failLine (fnName none "n") (Elapsed.mk 0 3) ∈
       logLines (runUnit (fun _ : Nat => Outcome.panicked (7 : Nat))
         (Elapsed.mk 0 3) (SynthUnit.active "n" none (0 : Nat))) ∧
     ∃ pre, runUnit (fun _ : Nat => Outcome.panicked (7 : Nat)) (Elapsed.mk 0 3)
         (SynthUnit.active "n" none (0 : Nat)) =
       pre ++ [Event.log (failLine (fnName none "n") (Elapsed.mk 0 3)),
         Event.propagate 7]) :=
  ⟨rfl, fail_logged_then_propagated "n" none 0 (fun _ => Outcome.panicked 7) 7
    (Elapsed.mk 0 3) rfl⟩

/-! ### C4: qualified display name -/

/-- C4: the qualified display name is `group ++ "/" ++ name` when a
(nonempty) group identifier was supplied and the bare name when none was,
and every log line of a non-skipped invocation is built from that
qualified name. -/
theorem qualified_display_name {π : Type} (g n : String) (hg : g ≠ "") :
    fnName (some g) n = g ++ "/" ++ n ∧
    fnName none n = n ∧
    ∀ (sup : Option String) (b : Outcome π) (t : Elapsed),
      logLines (runActive sup n b t) =
        [runLine (fnName sup n), resultLine b (fnName sup n) t] := by
  refine ⟨by simp [fnName, supText, hg], by simp [fnName, supText], ?_⟩
  intro sup b t
  cases b <;> simp [runActive, logLines, resultLine]

theorem qualified_display_name_witness :
    ("grp" : String) ≠ "" ∧
    (fnName (some "grp") "case1" = "grp" ++ "/" ++ "case1" ∧
     fnName none "case1" = "case1" ∧
     ∀ (sup : Option String) (b : Outcome Nat) (t : Elapsed),
       logLines (runActive sup "case1" b t) =
         [runLine (fnName sup "case1"), resultLine b (fnName sup "case1") t]) :=
  ⟨by decide, qualified_display_name (π := Nat) "grp" "case1" (by decide)⟩

/-! ### C5: exact log-line format -/

/-- C5 (counterexample): for a concrete passing unit the RUN line actually
printed is `"=== RUN  \tg/n"` — with a tab between the spaces and the
qualified name — so the emitted lines are not the claimed pair starting
with `"=== RUN  g/n"`. -/
theorem log_line_format_counterexample :
    logLines (runActive (π := Unit) (some "g") "n" Outcome.ok (Elapsed.mk 0 5)) =
      ["=== RUN  \tg/n", "--- PASS:\tg/n (0.5)"] ∧
    logLines (runActive (π := Unit) (some "g") "n" Outcome.ok (Elapsed.mk 0 5)) ≠
      ["=== RUN  g/n", "--- PASS:\tg/n (0.5)"] := by
  constructor <;> decide

/-- C5 (amended): for every non-skipped unit invocation the lines emitted
are exactly `"=== RUN  \t" ++ qualified-name` followed by either
`"--- PASS:\t" ++ qualified-name ++ " (" ++ secs ++ "." ++ millis ++ ")"`
on success or the same line with `FAIL` on failure — the RUN marker carries
a tab after the two spaces, unlike the claimed format. -/
theorem log_line_format_exact {π : Type} (sup : Option String) (n : String)
    (t : Elapsed) :
    logLines (runActive (π := π) sup n Outcome.ok t) =
      ["=== RUN  \t" ++ fnName sup n,
       "--- PASS:\t" ++ fnName sup n ++ " (" ++ toString t.secs ++ "." ++
         toString t.millis ++ ")"] ∧
    ∀ p : π, logLines (runActive sup n (Outcome.panicked p) t) =
      ["=== RUN  \t" ++ fnName sup n,
       "--- FAIL:\t" ++ fnName sup n ++ " (" ++ toString t.secs ++ "." ++
         toString t.millis ++ ")"] := by
  refine ⟨?_, fun p => ?_⟩ <;>
    simp [runActive, logLines, runLine, passLine, failLine]

/-! ### C6: ordering duality -/

/-- C6: two accepted tables of the same group holding the same multiset of
entries — in particular one phrased skip-then-optional-normal and one
phrased normal-then-optional-skip — expand to the same multiset of units,
and every entry becomes its one unit carrying its own skip flag. -/
theorem ordering_duality_equiv {α : Type} (t1 t2 : Table α)
    (m1 m2 : GenModule α) (hname : t1.name = t2.name)
    (hperm : t1.entries.Perm t2.entries)
    (h1 : test_cases t1 = some m1) (h2 : test_cases t2 = some m2) :
    m1.units.Perm m2.units ∧
    ∀ e ∈ t1.entries, mkUnit t1.name e ∈ m1.units ∧
      hasIgnoreAttr (mkUnit t1.name e) = e.skip := by
  obtain ⟨-, -, -, -, -, hu1⟩ := test_cases_some t1 m1 h1
  obtain ⟨-, -, -, -, -, hu2⟩ := test_cases_some t2 m2 h2
  constructor
  · rw [hu1, hu2, hname]
    exact hperm.map (mkUnit t2.name)
  · intro e he
    refine ⟨?_, hasIgnoreAttr_mkUnit _ _⟩
    rw [hu1]
    exact List.mem_map_of_mem _ he

theorem ordering_duality_equiv_witness :
    (sfTable.name = nfTable.name ∧
     sfTable.entries.Perm nfTable.entries ∧
     test_cases sfTable = some sfGenModule ∧
     test_cases nfTable = some nfGenModule) ∧
    (sfGenModule.units.Perm nfGenModule.units ∧
     ∀ e ∈ sfTable.entries, mkUnit sfTable.name e ∈ sfGenModule.units ∧
       hasIgnoreAttr (mkUnit sfTable.name e) = e.skip) :=
  ⟨⟨rfl, by decide, by decide, by decide⟩,
   ordering_duality_equiv sfTable nfTable sfGenModule nfGenModule rfl
     (by decide) (by decide) (by decide)⟩

/-! ### C7: order of timestamp, marker and body -/

/-- C7 (counterexample): in the concrete trace of a passing unit the start
instant is sampled as the very first event and the RUN marker is printed
second, so there is no occurrence of the RUN marker strictly before a
sampling of the start instant — the timestamp is not recorded after the
marker. -/
theorem marker_timestamp_order_counterexample :
    ¬ ∃ i j : Nat, i < j ∧
      (runActive (π := Unit) none "t0" Outcome.ok (Elapsed.mk 0 0)).get? i =
        some (Event.log (runLine (fnName none "t0"))) ∧
      (runActive (π := Unit) none "t0" Outcome.ok (Elapsed.mk 0 0)).get? j =
        some Event.recordStart := by
  rintro ⟨i, j, hij, hi, hj⟩
  have htr : runActive (π := Unit) none "t0" Outcome.ok (Elapsed.mk 0 0) =
      [Event.recordStart, Event.log (runLine "t0"), Event.invokeBody,
       Event.log (passLine "t0" (Elapsed.mk 0 0))] := by decide
  rw [htr] at hj
  rcases j with _ | _ | _ | _ | j
  · exact Nat.not_lt_zero i hij
  · simp [List.get?] at hj
  · simp [List.get?] at hj
  · simp [List.get?] at hj
  · simp [List.get?] at hj

/-- C7 (amended): for every non-skipped unit invocation the start instant
is sampled first, the RUN marker is printed second, and only then is the
body invoked: the start timestamp is recorded immediately before the
marker is emitted (hence before the body), not after the marker. -/
theorem timestamp_then_marker_then_body {π : Type} (sup : Option String)
    (n : String) (b : Outcome π) (t : Elapsed) :
    ∃ rest, runActive sup n b t =
      Event.recordStart :: Event.log (runLine (fnName sup n)) ::
        Event.invokeBody :: rest :=
  ⟨_, rfl⟩

/-! ### C8: malformed tables -/

/-- C8: a malformed table — `cases` block without its case-record item,
empty entry list, or a duplicate case name within the group — fails at
generation time: `generate` never yields a unit set, the error identifies
the offending group, and when the expansion itself matched and the flaw is
a duplicate case name, the error is the duplicate-definition diagnostic
naming the group and a name that occurs at least twice. -/
theorem malformed_table_rejected {α : Type} (t : Table α)
    (h : t.cases = [] ∨ t.entries = [] ∨
      ¬ (t.entries.map CaseEntry.name).Nodup) :
    (∀ us, generate t ≠ Except.ok us) ∧
    (∃ e, generate t = Except.error e ∧ GenError.group e = t.name) ∧
    (∀ m, test_cases t = some m →
      ∃ d, generate t = Except.error (GenError.duplicateDefinition t.name d) ∧
        2 ≤ (t.entries.map CaseEntry.name).count d) := by
  cases hm : test_cases t with
  | none =>
    refine ⟨?_, ⟨GenError.noMatch t.name, ?_, rfl⟩, ?_⟩
    · intro us
      simp [generate, hm]
    · simp [generate, hm]
    · intro m hm'
      exact Option.noConfusion hm'
  | some m =>
    obtain ⟨hmod, -, -, hcases, hne, hunits⟩ := test_cases_some t m hm
    have hnd : ¬ (t.entries.map CaseEntry.name).Nodup := by
      rcases h with h | h | h
      · rw [h] at hcases
        exact absurd hcases (by simp)
      · exact absurd h hne
      · exact h
    have hnames : m.units.map unitName = t.entries.map CaseEntry.name := by
      rw [hunits, map_unitName_mkUnit]
    have hfd : firstDup (m.units.map unitName) ≠ none := by
      rw [hnames, Ne, firstDup_none_iff]
      exact hnd
    obtain ⟨d, hd⟩ := Option.ne_none_iff_exists'.mp hfd
    have hcount : 2 ≤ (t.entries.map CaseEntry.name).count d := by
      have hc := firstDup_count (m.units.map unitName) d hd
      rwa [hnames] at hc
    have hgen : generate t = Except.error
        (GenError.duplicateDefinition t.name d) := by
      simp [generate, hm, hd, hmod]
    refine ⟨?_, ⟨GenError.duplicateDefinition t.name d, hgen, rfl⟩, ?_⟩
    · intro us
      rw [hgen]
      simp
    · intro m' hm'
      exact ⟨d, hgen, hcount⟩

theorem malformed_table_rejected_witness :
    (dupTable.cases = [] ∨ dupTable.entries = [] ∨
      ¬ (dupTable.entries.map CaseEntry.name).Nodup) ∧
    ((∀ us, generate dupTable ≠ Except.ok us) ∧
     (∃ e, generate dupTable = Except.error e ∧
        GenError.group e = dupTable.name) ∧
     (∀ m, test_cases dupTable = some m →
       ∃ d, generate dupTable = Except.error
           (GenError.duplicateDefinition dupTable.name d) ∧
         2 ≤ (dupTable.entries.map CaseEntry.name).count d)) :=
  ⟨Or.inr (Or.inr (by decide)),
   malformed_table_rejected dupTable (Or.inr (Or.inr (by decide)))⟩

/-! ### C9: mixed orientations are rejected -/

/-- C9: the case-list grammar does not accept every interleaving: a list
whose first entry is normal but which contains two adjacent skip entries —
and dually a list whose first entry is skipped but which contains two
adjacent normal entries — matches neither the skip-first nor the
normal-first arm, so `test_cases` rejects the table at generation time. -/
theorem mixed_orientation_rejected {α : Type} (t : Table α)
    (e : CaseEntry α) (rest : List (CaseEntry α))
    (hent : t.entries = e :: rest)
    (h : (e.skip = false ∧ hasAdjacent (fun x => x.skip) (e :: rest) = true) ∨
         (e.skip = true ∧ hasAdjacent (fun x => !x.skip) (e :: rest) = true)) :
    test_cases t = none := by
  have hsf : sfExpand t.name t.entries = none := by
    rw [hent]
    cases hs : sfRestExp t.name (e :: rest) with
    | none => simpa [sfExpand] using hs
    | some us =>
      exfalso
      rcases h with ⟨hn, -⟩ | ⟨-, hadj⟩
      · rw [sfRestExp_head t.name e rest us hs] at hn
        exact absurd hn (by simp)
      · rw [sfRestExp_no_adj t.name (e :: rest) us hs] at hadj
        exact absurd hadj (by simp)
  have hnf : nfExpand t.name t.entries = none := by
    rw [hent]
    cases hs : nfRestExp t.name (e :: rest) with
    | none => simpa [nfExpand] using hs
    | some us =>
      exfalso
      rcases h with ⟨-, hadj⟩ | ⟨hskip, -⟩
      · rw [nfRestExp_no_adj t.name (e :: rest) us hs] at hadj
        exact absurd hadj (by simp)
      · rw [nfRestExp_head t.name e rest us hs] at hskip
        exact absurd hskip (by simp)
  have heu : expandUnits t.name t.entries = none := by
    simp [expandUnits, hsf, hnf]
  rcases hc : t.cases with _ | ⟨c, _ | ⟨c2, cs⟩⟩ <;> simp [test_cases, hc, heu]

theorem mixed_orientation_rejected_witness :
    mixTable.entries = CaseEntry.mk "a" false 1 ::
      [CaseEntry.mk "b" true 2, CaseEntry.mk "c" true 3] ∧
    ((CaseEntry.mk "a" false (1 : Nat)).skip = false ∧
      hasAdjacent (fun x => x.skip) (CaseEntry.mk "a" false 1 ::
        [CaseEntry.mk "b" true 2, CaseEntry.mk "c" true 3]) = true) ∧
    test_cases mixTable = none :=
  ⟨rfl, ⟨rfl, by decide⟩,
   mixed_orientation_rejected mixTable (CaseEntry.mk "a" false 1)
     [CaseEntry.mk "b" true 2, CaseEntry.mk "c" true 3] rfl
     (Or.inl ⟨rfl, by decide⟩)⟩

/-! ### C10: cfg(test) gating -/

/-- C10: every module generated by the table expansion carries the
`cfg(test)` guard, so its fixtures, case-record item and units are present
in test builds and contribute no items to non-test builds. -/
theorem cfg_test_gating {α : Type} (t : Table α) (m : GenModule α)
    (h : test_cases t = some m) :
    m.cfgTest = true ∧ GenModule.buildItems m false = [] ∧
    GenModule.buildItems m true = GenModule.items m := by
  obtain ⟨-, hcfg, -, -, -, -⟩ := test_cases_some t m h
  refine ⟨hcfg, ?_, ?_⟩ <;> simp [GenModule.buildItems, hcfg]

theorem cfg_test_gating_witness :
    test_cases oneTable = some oneGenModule ∧
    (oneGenModule.cfgTest = true ∧
     GenModule.buildItems oneGenModule false = [] ∧
     GenModule.buildItems oneGenModule true = GenModule.items oneGenModule) :=
  ⟨by decide, cfg_test_gating oneTable oneGenModule (by decide)⟩
